import Mathlib

/-!
Verification model of rigpad (src/main.py): a rig-control bridge with a
frequency sync loop and a D-pad input dispatch loop sharing mutable state.
Strings are modelled as lists of Unicode characters, byte strings as lists
of byte values (Nat < 256).
-/

namespace Rigpad

/-- Python str.isspace / str.strip whitespace set (by code point). -/
def isPySpace (c : Char) : Bool :=
  let n := c.toNat
  (9 ≤ n && n ≤ 13) || n == 32 || (28 ≤ n && n ≤ 31) || n == 0x85 ||
  n == 0xA0 || n == 0x1680 || (0x2000 ≤ n && n ≤ 0x200A) || n == 0x2028 ||
  n == 0x2029 || n == 0x202F || n == 0x205F || n == 0x3000

/-- ASCII decimal digit test (by code point). -/
def isDigit (c : Char) : Bool := 48 ≤ c.toNat && c.toNat ≤ 57

/-- Numeric value of an ASCII digit character. -/
def digitVal (c : Char) : Nat := c.toNat - 48

/-- Python str.strip(): remove leading and trailing whitespace. -/
def pyStrip (s : List Char) : List Char :=
  ((s.dropWhile isPySpace).reverse.dropWhile isPySpace).reverse

/-- Python str.split over a single newline separator: s.split(chr(10)).
    The empty string yields one empty field. -/
def splitNl : List Char → List (List Char)
  | [] => [[]]
  | c :: rest =>
    if c = '\n' then [] :: splitNl rest
    else
      match splitNl rest with
      | [] => [[c]]
      | l :: ls => (c :: l) :: ls

/-- Digit run of a Python int literal after its first digit: digits with
    single underscores allowed only between digits. Accumulates the value. -/
def parseAfterDigit (acc : Nat) : List Char → Option Nat
  | [] => some acc
  | c :: rest =>
    if isDigit c then parseAfterDigit (acc * 10 + digitVal c) rest
    else if c = '_' then
      match rest with
      | d :: rest2 =>
        if isDigit d then parseAfterDigit (acc * 10 + digitVal d) rest2 else none
      | [] => none
    else none

/-- Unsigned digit part of Python int(): at least one digit, then
    digit/underscore groups. -/
def parseDigits : List Char → Option Nat
  | [] => none
  | c :: rest => if isDigit c then parseAfterDigit (digitVal c) rest else none

/-- Python int(str) on ASCII text: strip whitespace, optional single sign,
    base-10 digits with underscore grouping; anything else raises ValueError
    (modelled as none). -/
def pyInt (s : List Char) : Option Int :=
  match pyStrip s with
  | [] => none
  | c :: rest =>
    if c = '-' then (parseDigits rest).map (fun n => -(n : Int))
    else if c = '+' then (parseDigits rest).map (fun n => (n : Int))
    else (parseDigits (c :: rest)).map (fun n => (n : Int))

/-- UTF-8 continuation byte test. -/
def isCont (b : Nat) : Bool := 0x80 ≤ b && b ≤ 0xBF

/-- Strict UTF-8 decoding of a byte list (Python bytes.decode with the utf-8
    codec): rejects truncated sequences, stray continuation bytes, overlong
    encodings, surrogate code points and values above U+10FFFF; none models
    UnicodeDecodeError. -/
def utf8Decode : List Nat → Option (List Char)
  | [] => some []
  | b0 :: rest =>
    if b0 ≤ 0x7F then
      (utf8Decode rest).map (fun cs => Char.ofNat b0 :: cs)
    else if 0xC2 ≤ b0 && b0 ≤ 0xDF then
      match rest with
      | b1 :: rest1 =>
        if isCont b1 then
          (utf8Decode rest1).map
            (fun cs => Char.ofNat ((b0 - 0xC0) * 0x40 + (b1 - 0x80)) :: cs)
        else none
      | [] => none
    else if 0xE0 ≤ b0 && b0 ≤ 0xEF then
      match rest with
      | b1 :: b2 :: rest2 =>
        if isCont b1 && isCont b2 && !(b0 == 0xE0 && b1 < 0xA0) &&
            !(b0 == 0xED && 0xA0 ≤ b1) then
          (utf8Decode rest2).map
            (fun cs =>
              Char.ofNat ((b0 - 0xE0) * 0x1000 + (b1 - 0x80) * 0x40 +
                (b2 - 0x80)) :: cs)
        else none
      | _ => none
    else if 0xF0 ≤ b0 && b0 ≤ 0xF4 then
      match rest with
      | b1 :: b2 :: b3 :: rest3 =>
        if isCont b1 && isCont b2 && isCont b3 && !(b0 == 0xF0 && b1 < 0x90) &&
            !(b0 == 0xF4 && 0x8F < b1) then
          (utf8Decode rest3).map
            (fun cs =>
              Char.ofNat ((b0 - 0xF0) * 0x40000 + (b1 - 0x80) * 0x1000 +
                (b2 - 0x80) * 0x40 + (b3 - 0x80)) :: cs)
        else none
      | _ => none
    else none

/-- Response handling of AsyncRigControlServer.get_rig_data (src/main.py
    lines 36-53) applied to the received bytes: decode as UTF-8 (an invalid
    byte sequence raises UnicodeDecodeError, modelled as Except.error, since
    the decode sits outside the try block), strip the whole response, split
    on newline, take the last field, strip it, and try int(); a ValueError
    from int() is caught and yields None. -/
def get_rig_data (response : List Nat) : Except Unit (Option Int) :=
  match utf8Decode response with
  | none => Except.error ()
  | some text =>
    let resp := pyStrip text
    let frequency_str := pyStrip ((splitNl resp).getLastD [])
    Except.ok (pyInt frequency_str)

/-- Value denoted by a string of ASCII decimal digits. -/
def digitsToNat (s : List Char) : Nat :=
  s.foldl (fun acc c => acc * 10 + digitVal c) 0

/-- The fixed step-size set of handle_controller_input (src/main.py line 68):
    1 kHz, 12.5 kHz, 1 MHz. -/
def frequency_steps : List Int := [1000, 12500, 1000000]

/-- frequency_steps[i] for the step index maintained modulo the list length. -/
def stepAt (i : Int) : Int := frequency_steps.getD i.toNat 0

/-- The mutable fields of AsyncRigControlServer shared by the two loops:
    last_frequency (None until first read) and the step index local to
    handle_controller_input. -/
structure ServerState where
  last_frequency : Option Int
  step_index : Int
  deriving Repr, DecidableEq

/-- Wire command built by set_frequency (src/main.py line 61). -/
def set_frequency_command (frequency : Int) : String :=
  "F " ++ toString frequency ++ "\n"

/-- One body iteration of handle_controller_input (src/main.py lines 71-105):
    the joystick hat state is (x, y) with left x = -1, right x = 1, up y = 1,
    down y = -1, or no joystick at all. Returns the new shared state and the
    command written to the connection, if any. -/
def handle_cycle (hat : Option (Int × Int)) (st : ServerState) :
    ServerState × Option String :=
  match hat with
  | none => (st, none)
  | some hv =>
    let dpad_left : Bool := hv.1 == -1
    let dpad_right : Bool := hv.1 == 1
    let dpad_up : Bool := hv.2 == 1
    let dpad_down : Bool := hv.2 == -1
    if dpad_left then
      let base := match st.last_frequency with
        | none => 1000000
        | some f => f
      let nf := base - stepAt st.step_index
      ({ st with last_frequency := some nf }, some (set_frequency_command nf))
    else if dpad_right then
      let base := match st.last_frequency with
        | none => 1000000
        | some f => f
      let nf := base + stepAt st.step_index
      ({ st with last_frequency := some nf }, some (set_frequency_command nf))
    else if dpad_up then
      ({ st with step_index :=
          (st.step_index + 1) % (frequency_steps.length : Int) }, none)
    else if dpad_down then
      ({ st with step_index :=
          (st.step_index - 1) % (frequency_steps.length : Int) }, none)
    else (st, none)

/-- The action a single input cycle dispatches. -/
inductive Action where
  | shiftDown
  | shiftUp
  | stepNext
  | stepPrev
  | noAction
  deriving Repr, DecidableEq

/-- Which branch of the if/elif chain in handle_controller_input fires:
    left before right before up before down, nothing when neutral or when
    no joystick is present. -/
def dispatchAction (hat : Option (Int × Int)) : Action :=
  match hat with
  | none => Action.noAction
  | some hv =>
    if hv.1 == -1 then Action.shiftDown
    else if hv.1 == 1 then Action.shiftUp
    else if hv.2 == 1 then Action.stepNext
    else if hv.2 == -1 then Action.stepPrev
    else Action.noAction

/-- Effect of a single dispatched action on the shared state, and the command
    it writes. -/
def applyAction (a : Action) (st : ServerState) : ServerState × Option String :=
  match a with
  | Action.shiftDown =>
    let base := match st.last_frequency with
      | none => 1000000
      | some f => f
    let nf := base - stepAt st.step_index
    ({ st with last_frequency := some nf }, some (set_frequency_command nf))
  | Action.shiftUp =>
    let base := match st.last_frequency with
      | none => 1000000
      | some f => f
    let nf := base + stepAt st.step_index
    ({ st with last_frequency := some nf }, some (set_frequency_command nf))
  | Action.stepNext =>
    ({ st with step_index :=
        (st.step_index + 1) % (frequency_steps.length : Int) }, none)
  | Action.stepPrev =>
    ({ st with step_index :=
        (st.step_index - 1) % (frequency_steps.length : Int) }, none)
  | Action.noAction => (st, none)

/-- One body iteration of sync_frequencies (src/main.py lines 109-114)
    applied to last_frequency, given the value read this cycle (none when
    get_rig_data returned None): the assignment runs only when freq is
    truthy, i.e. not None and not 0, and differs from last_frequency. -/
def sync_step (last_frequency : Option Int) (freq : Option Int) : Option Int :=
  match freq with
  | none => last_frequency
  | some f =>
    if f != 0 && last_frequency != some f then some f else last_frequency

/-- The sync loop over a finite sequence of per-cycle read results. -/
def sync_loop (last_frequency : Option Int) (reads : List (Option Int)) :
    Option Int :=
  reads.foldl sync_step last_frequency

/-- Observable events of the engine lifecycle. -/
inductive Ev where
  | openConn
  | openFail
  | setRunning
  | syncIter
  | inputIter
  | closeConn
  | excRaised
  deriving Repr, DecidableEq

/-- How a run of the two gathered loops ends: the process is interrupted
    (KeyboardInterrupt) or a transport call fails (exception from a loop). -/
inductive RunEnding where
  | interrupted
  | transportError
  deriving Repr, DecidableEq

/-- Loop iterations observed while both loops run for n cycles. -/
def loopEvents : Nat → List Ev
  | 0 => []
  | n + 1 => loopEvents n ++ [Ev.syncIter, Ev.inputIter]

/-- Event trace of start() (src/main.py lines 116-120): open_connection
    first (on failure the exception propagates at once), then the running
    flag is set, then the two loops run under asyncio.gather until an
    exception ends them; start() itself never calls close_connection. -/
def startTrace (openOk : Bool) (n : Nat) (_e : RunEnding) : List Ev :=
  if openOk then
    [Ev.openConn, Ev.setRunning] ++ loopEvents n ++ [Ev.excRaised]
  else [Ev.openFail, Ev.excRaised]
-- _e records how the gather ended; either way the exception leaves start().

/-- Event trace of the __main__ block (src/main.py lines 128-140):
    asyncio.run(server.start()) inside try/except KeyboardInterrupt; only
    an interrupt is caught and answered with stop(), which closes the
    connection; any other exception propagates with no close. -/
def mainTrace (openOk : Bool) (n : Nat) (e : RunEnding) : List Ev :=
  startTrace openOk n e ++
    (if openOk then
      match e with
      | RunEnding.interrupted => [Ev.closeConn]
      | RunEnding.transportError => []
    else [])

/-- The sync loop's assignment window (src/main.py lines 111-113) as one
    atomic step: under asyncio there is no await between the comparison and
    the assignment. Returns the values assigned to last_frequency (empty or
    a singleton) and the resulting state. -/
def syncWriteStep (freq : Int) (s : ServerState) : List Int × ServerState :=
  if freq != 0 && s.last_frequency != some freq then
    ([freq], { s with last_frequency := some freq })
  else ([], s)

/-- One handle_controller_input dispatch as one atomic step: the values it
    assigns to last_frequency (a left/right branch assigns exactly the value
    it then sends; up/down and neutral assign none) and the resulting
    state. -/
def dispatchWriteStep (hat : Int × Int) (s : ServerState) :
    List Int × ServerState :=
  let r := handle_cycle (some hat) s
  match r.2 with
  | some _ =>
    match r.1.last_frequency with
    | some v => ([v], r.1)
    | none => ([], r.1)
  | none => ([], r.1)

/-- Interleaved execution of one sync_frequencies assignment window and one
    input dispatch racing on last_frequency in the same cycle window: each
    region is atomic (no await inside), so only their order varies. Returns
    the values assigned to last_frequency in execution order, and the final
    state. -/
def raceExec (syncFirst : Bool) (freq : Int) (hat : Int × Int)
    (st : ServerState) : List Int × ServerState :=
  if syncFirst then
    let p1 := syncWriteStep freq st
    let p2 := dispatchWriteStep hat p1.2
    (p1.1 ++ p2.1, p2.2)
  else
    let p1 := dispatchWriteStep hat st
    let p2 := syncWriteStep freq p1.2
    (p1.1 ++ p2.1, p2.2)

/-! ## Helper lemmas -/

theorem isPySpace_eq_false_of_isDigit {c : Char} (h : isDigit c = true) :
    isPySpace c = false := by
  simp only [isDigit, Bool.and_eq_true, decide_eq_true_eq] at h
  simp only [isPySpace, Bool.or_eq_false_iff, Bool.and_eq_false_iff,
    decide_eq_false_iff_not, not_le, beq_eq_false_iff_ne, ne_eq]
  omega

theorem dropWhile_isPySpace_of_digits {s : List Char}
    (h : s.all isDigit = true) : s.dropWhile isPySpace = s := by
  cases s with
  | nil => rfl
  | cons c t =>
    simp only [List.all_cons, Bool.and_eq_true] at h
    simp [List.dropWhile_cons, isPySpace_eq_false_of_isDigit h.1]

theorem pyStrip_of_digits {s : List Char} (h : s.all isDigit = true) :
    pyStrip s = s := by
  unfold pyStrip
  rw [dropWhile_isPySpace_of_digits h]
  rw [dropWhile_isPySpace_of_digits (by simpa using h)]
  exact s.reverse_reverse

theorem parseAfterDigit_cons_digit {c : Char} (h : isDigit c = true)
    (acc : Nat) (t : List Char) :
    parseAfterDigit acc (c :: t) = parseAfterDigit (acc * 10 + digitVal c) t := by
  conv_lhs => rw [parseAfterDigit.eq_def]
  simp [h]

theorem parseAfterDigit_all_digits (s : List Char) :
    ∀ acc : Nat, s.all isDigit = true →
      parseAfterDigit acc s =
        some (s.foldl (fun a c => a * 10 + digitVal c) acc) := by
  induction s with
  | nil => intro acc _; rfl
  | cons c t ih =>
    intro acc h
    simp only [List.all_cons, Bool.and_eq_true] at h
    rw [parseAfterDigit_cons_digit h.1, List.foldl_cons]
    exact ih _ h.2

theorem parseDigits_all_digits {s : List Char} (hne : s ≠ [])
    (h : s.all isDigit = true) : parseDigits s = some (digitsToNat s) := by
  cases s with
  | nil => exact absurd rfl hne
  | cons c t =>
    simp only [List.all_cons, Bool.and_eq_true] at h
    simp only [parseDigits, h.1, if_true]
    rw [parseAfterDigit_all_digits t (digitVal c) h.2]
    simp [digitsToNat]

theorem pyInt_all_digits {s : List Char} (hne : s ≠ [])
    (h : s.all isDigit = true) : pyInt s = some ((digitsToNat s : Nat) : Int) := by
  unfold pyInt
  rw [pyStrip_of_digits h]
  cases s with
  | nil => exact absurd rfl hne
  | cons c t =>
    have hc : isDigit c = true := by
      simp only [List.all_cons, Bool.and_eq_true] at h
      exact h.1
    have hminus : ¬(c = '-') := by
      intro e; rw [e] at hc; exact absurd hc (by decide)
    have hplus : ¬(c = '+') := by
      intro e; rw [e] at hc; exact absurd hc (by decide)
    simp only [if_neg hminus, if_neg hplus]
    rw [parseDigits_all_digits hne h]
    rfl

/-! ## Claims -/

/-- C1: for every response byte string that decodes as UTF-8 and whose last
    line (after stripping the whole response, splitting on newline, and
    stripping the resulting last field) is a decimal integer literal,
    get_rig_data returns exactly that integer, ignoring all preceding
    lines. -/
theorem get_rig_data_last_line_digits (bs : List Nat) (text : List Char)
    (hdec : utf8Decode bs = some text) (lastLine : List Char)
    (hL : lastLine = pyStrip ((splitNl (pyStrip text)).getLastD []))
    (hne : lastLine ≠ []) (hdig : lastLine.all isDigit = true) :
    get_rig_data bs = Except.ok (some ((digitsToNat lastLine : Nat) : Int)) := by
  have hval : get_rig_data bs =
      Except.ok (pyInt (pyStrip ((splitNl (pyStrip text)).getLastD []))) := by
    unfold get_rig_data
    rw [hdec]
  rw [hval, ← hL]
  exact congrArg Except.ok (pyInt_all_digits hne hdig)

/-- C1 witness: the response bytes of "OK\n145000000\n" decode to
    145000000. -/
theorem get_rig_data_last_line_digits_witness :
    get_rig_data [79, 75, 10, 49, 52, 53, 48, 48, 48, 48, 48, 48, 10] =
      Except.ok (some 145000000) :=
  get_rig_data_last_line_digits
    [79, 75, 10, 49, 52, 53, 48, 48, 48, 48, 48, 48, 10]
    ['O', 'K', '\n', '1', '4', '5', '0', '0', '0', '0', '0', '0', '\n'] rfl
    ['1', '4', '5', '0', '0', '0', '0', '0', '0'] rfl
    (by decide) (by decide)

/-- C2 counterexample: on bytes that are not valid UTF-8 (here the single
    byte 0xFF), get_rig_data raises UnicodeDecodeError (the decode call sits
    outside the try/except ValueError) instead of returning None. -/
theorem get_rig_data_invalid_utf8_raises :
    get_rig_data [255] = Except.error () := rfl

/-- C2 amended: for every response byte string that does decode as UTF-8,
    get_rig_data never raises; when the stripped last line fails integer
    parsing it returns None. -/
theorem get_rig_data_bad_line_returns_none (bs : List Nat) (text : List Char)
    (hdec : utf8Decode bs = some text)
    (hfail : pyInt (pyStrip ((splitNl (pyStrip text)).getLastD [])) = none) :
    get_rig_data bs = Except.ok none := by
  unfold get_rig_data
  rw [hdec]
  exact congrArg Except.ok hfail

/-- C2 witness: the response bytes of "hello" yield None without raising. -/
theorem get_rig_data_bad_line_returns_none_witness :
    get_rig_data [104, 101, 108, 108, 111] = Except.ok none :=
  get_rig_data_bad_line_returns_none [104, 101, 108, 108, 111]
    ['h', 'e', 'l', 'l', 'o'] rfl (by decide)

/-- C3 counterexample: a decoded value of 0 differing from the current
    last_frequency (here 5) does not update it, because the code guards the
    assignment with the truthiness of freq, which excludes 0. -/
theorem sync_step_zero_not_updated :
    sync_step (some 5) (some 0) = some 5 ∧
    sync_step (some 5) (some 0) ≠ some 0 := by decide

/-- C3 amended: a successful decode of a nonzero value differing from
    last_frequency (including when it is still absent) updates
    last_frequency to it; a failed decode, or a decoded value of 0, leaves
    last_frequency unchanged for that cycle. -/
theorem sync_step_updates (last : Option Int) (f : Int) :
    (f ≠ 0 → last ≠ some f → sync_step last (some f) = some f) ∧
    sync_step last none = last ∧
    sync_step last (some 0) = last := by
  refine ⟨fun h1 h2 => ?_, rfl, by simp [sync_step]⟩
  show (if (f != 0 && last != some f) = true then some f else last) = some f
  rw [if_pos]
  simp [h1, h2]

/-- C3 witness: a first successful read of 7 fills the absent
    last_frequency. -/
theorem sync_step_updates_witness : sync_step none (some 7) = some 7 :=
  (sync_step_updates none 7).1 (by decide) (by decide)

/-- The if/elif chain of handle_controller_input performs exactly the effect
    of the single action selected by its dispatch order. -/
theorem handle_cycle_eq_applyAction (hat : Option (Int × Int))
    (st : ServerState) :
    handle_cycle hat st = applyAction (dispatchAction hat) st := by
  cases hat with
  | none => rfl
  | some hv =>
    simp only [handle_cycle, dispatchAction]
    split_ifs <;> rfl

/-- C4: a left (resp. right) dispatch sets last_frequency to base - step
    (resp. base + step), where base is the prior last_frequency or 1000000
    when absent and step is the step-size entry at the active index, and
    writes exactly the command <F newvalue newline>. -/
theorem handle_cycle_shift (st : ServerState) (y z : Int)
    (hidx : 0 ≤ st.step_index ∧
      st.step_index < (frequency_steps.length : Int)) :
    handle_cycle (some (-1, y)) st =
      ({ st with
          last_frequency :=
            some (st.last_frequency.getD 1000000 - stepAt st.step_index) },
        some (set_frequency_command
          (st.last_frequency.getD 1000000 - stepAt st.step_index))) ∧
    handle_cycle (some (1, z)) st =
      ({ st with
          last_frequency :=
            some (st.last_frequency.getD 1000000 + stepAt st.step_index) },
        some (set_frequency_command
          (st.last_frequency.getD 1000000 + stepAt st.step_index))) := by
  constructor <;> cases h : st.last_frequency <;>
    simp [handle_cycle, Option.getD, h]

/-- C4 witness: the spec examples — no prior frequency, step 1000, left
    gives 999000 and sends "F 999000\n"; prior 145000000, step 12500, right
    gives 145012500. -/
theorem handle_cycle_shift_witness :
    handle_cycle (some (-1, 0)) (⟨none, 0⟩ : ServerState) =
      (⟨some 999000, 0⟩, some "F 999000\n") ∧
    handle_cycle (some (1, 0)) (⟨some 145000000, 1⟩ : ServerState) =
      (⟨some 145012500, 1⟩, some "F 145012500\n") :=
  ⟨(handle_cycle_shift ⟨none, 0⟩ 0 0 (by decide)).1,
   (handle_cycle_shift ⟨some 145000000, 1⟩ 0 0 (by decide)).2⟩

/-- C5: up and down dispatches keep the step index within
    0 .. |frequency_steps| - 1 by reducing modulo the length in both
    directions: up from the last index wraps to 0 and down from 0 wraps to
    the last index, never a negative index. -/
theorem step_index_wraps (st : ServerState) (h0 : 0 ≤ st.step_index)
    (h1 : st.step_index < (frequency_steps.length : Int)) :
    (0 ≤ (handle_cycle (some (0, 1)) st).1.step_index ∧
      (handle_cycle (some (0, 1)) st).1.step_index <
        (frequency_steps.length : Int)) ∧
    (0 ≤ (handle_cycle (some (0, -1)) st).1.step_index ∧
      (handle_cycle (some (0, -1)) st).1.step_index <
        (frequency_steps.length : Int)) ∧
    (st.step_index = (frequency_steps.length : Int) - 1 →
      (handle_cycle (some (0, 1)) st).1.step_index = 0) ∧
    (st.step_index = 0 →
      (handle_cycle (some (0, -1)) st).1.step_index =
        (frequency_steps.length : Int) - 1) := by
  have hup : (handle_cycle (some (0, 1)) st).1.step_index =
      (st.step_index + 1) % 3 := by
    simp [handle_cycle, frequency_steps]
  have hdown : (handle_cycle (some (0, -1)) st).1.step_index =
      (st.step_index - 1) % 3 := by
    simp [handle_cycle, frequency_steps]
  rw [hup, hdown, show (frequency_steps.length : Int) = 3 from rfl]
  omega

/-- C5 witness: one down dispatch from index 0 wraps to index 2. -/
theorem step_index_wraps_witness :
    (handle_cycle (some (0, -1)) (⟨none, 0⟩ : ServerState)).1.step_index = 2 :=
  (step_index_wraps ⟨none, 0⟩ (by decide) (by decide)).2.2.2 rfl

/-- C6: each input cycle performs at most the one action selected by strict
    priority, left before right before up before down, first match winning;
    left pressed together with up yields only the left action, and neutral
    or no joystick yields no action. -/
theorem dispatch_priority (hat : Option (Int × Int)) (st : ServerState) :
    handle_cycle hat st = applyAction (dispatchAction hat) st ∧
    (∀ y : Int, dispatchAction (some (-1, y)) = Action.shiftDown) ∧
    dispatchAction (some (-1, 1)) = Action.shiftDown ∧
    dispatchAction (some (0, 0)) = Action.noAction ∧
    dispatchAction none = Action.noAction ∧
    applyAction Action.noAction st = (st, none) :=
  ⟨handle_cycle_eq_applyAction hat st,
   fun y => by simp [dispatchAction],
   by decide, by decide, rfl, rfl⟩

/-- C10: an up or down dispatch changes only the step index: last_frequency
    is unchanged and no command is written in that cycle. -/
theorem step_change_frame (hat : Option (Int × Int)) (st : ServerState)
    (h : dispatchAction hat = Action.stepNext ∨
      dispatchAction hat = Action.stepPrev) :
    (handle_cycle hat st).1.last_frequency = st.last_frequency ∧
    (handle_cycle hat st).2 = none := by
  rw [handle_cycle_eq_applyAction]
  rcases h with h | h <;> rw [h] <;> exact ⟨rfl, rfl⟩

/-- C10 witness: an up dispatch with last_frequency 5 leaves it at 5 and
    writes nothing. -/
theorem step_change_frame_witness :
    (handle_cycle (some (0, 1))
      (⟨some 5, 0⟩ : ServerState)).1.last_frequency = some 5 ∧
    (handle_cycle (some (0, 1)) (⟨some 5, 0⟩ : ServerState)).2 = none :=
  step_change_frame (some (0, 1)) ⟨some 5, 0⟩ (Or.inl rfl)

/-- C7: when opening the connection fails, start() propagates the failure
    before the running flag is set and before either loop starts: the trace
    holds no loop iteration and no setRunning event. -/
theorem start_open_failure (n : Nat) (e : RunEnding) :
    startTrace false n e = [Ev.openFail, Ev.excRaised] ∧
    (startTrace false n e).count Ev.syncIter = 0 ∧
    (startTrace false n e).count Ev.inputIter = 0 ∧
    Ev.setRunning ∉ startTrace false n e := by
  refine ⟨rfl, rfl, rfl, ?_⟩
  show Ev.setRunning ∉ [Ev.openFail, Ev.excRaised]
  decide

/-- C8 counterexample: when a transport error ends the loops, the exception
    propagates out of __main__ uncaught, and the opened connection is never
    closed: one openConn event and zero closeConn events. -/
theorem close_skipped_on_loop_failure :
    Ev.openConn ∈ mainTrace true 1 RunEnding.transportError ∧
    (mainTrace true 1 RunEnding.transportError).count Ev.closeConn = 0 := by
  decide

theorem loopEvents_count_eq_zero (n : Nat) (v : Ev) (h1 : v ≠ Ev.syncIter)
    (h2 : v ≠ Ev.inputIter) : (loopEvents n).count v = 0 := by
  induction n with
  | zero => rfl
  | succ k ih =>
    rw [loopEvents, List.count_append, ih]
    simp [List.count_cons, Ne.symm h1, Ne.symm h2]

/-- C8 amended: after a successful open, the connection is closed exactly
    once on the KeyboardInterrupt exit path (via stop()), but zero times on
    a failure exit — close is not performed on every exit path. -/
theorem close_once_on_interrupt_only (n : Nat) :
    (mainTrace true n RunEnding.interrupted).count Ev.closeConn = 1 ∧
    (mainTrace true n RunEnding.transportError).count Ev.closeConn = 0 ∧
    (mainTrace true n RunEnding.interrupted).count Ev.openConn = 1 := by
  have hclose := loopEvents_count_eq_zero n Ev.closeConn (by decide) (by decide)
  have hopen := loopEvents_count_eq_zero n Ev.openConn (by decide) (by decide)
  unfold mainTrace startTrace
  simp [List.count_append, List.count_cons, hclose, hopen]

theorem syncWriteStep_spec (freq : Int) (s : ServerState) :
    (syncWriteStep freq s).1 = [] ∨
    ((syncWriteStep freq s).1 = [freq] ∧
      (syncWriteStep freq s).2.last_frequency = some freq) := by
  unfold syncWriteStep
  split_ifs <;> simp

theorem dispatchWriteStep_spec (hat : Int × Int) (s : ServerState) :
    (dispatchWriteStep hat s).1 = [] ∨
    (∃ w, (dispatchWriteStep hat s).1 = [w] ∧
      (dispatchWriteStep hat s).2.last_frequency = some w) := by
  unfold dispatchWriteStep
  cases h2 : (handle_cycle (some hat) s).2 with
  | none => simp [h2]
  | some cmd =>
    cases hl : (handle_cycle (some hat) s).1.last_frequency with
    | none => simp [h2, hl]
    | some v =>
      right
      exact ⟨v, by simp [h2, hl], by simp [h2, hl]⟩

/-- C9: when the sync loop's update and a left/right dispatch's write race
    in the same cycle window (each region atomic under asyncio, order
    arbitrary), the final last_frequency is exactly one of the two written
    values — never a corrupted or partial value. -/
theorem race_one_of_two_writes (syncFirst : Bool) (freq : Int)
    (hat : Int × Int) (st : ServerState) (v1 v2 : Int)
    (h : (raceExec syncFirst freq hat st).1 = [v1, v2]) :
    (raceExec syncFirst freq hat st).2.last_frequency = some v1 ∨
    (raceExec syncFirst freq hat st).2.last_frequency = some v2 := by
  cases syncFirst with
  | true =>
    have h1r : (raceExec true freq hat st).1 =
        (syncWriteStep freq st).1 ++
          (dispatchWriteStep hat (syncWriteStep freq st).2).1 := rfl
    have h2r : (raceExec true freq hat st).2 =
        (dispatchWriteStep hat (syncWriteStep freq st).2).2 := rfl
    rw [h1r] at h
    rw [h2r]
    rcases syncWriteStep_spec freq st with hs | ⟨hs, _⟩
    · rcases dispatchWriteStep_spec hat (syncWriteStep freq st).2 with
        hd | ⟨w, hw, _⟩
      · rw [hs, hd] at h
        simp at h
      · rw [hs, hw] at h
        simp at h
    · rcases dispatchWriteStep_spec hat (syncWriteStep freq st).2 with
        hd | ⟨w, hw, hlast⟩
      · rw [hs, hd] at h
        simp at h
      · rw [hs, hw] at h
        simp only [List.cons_append, List.nil_append, List.cons.injEq,
          and_true] at h
        right
        rw [hlast, h.2]
  | false =>
    have h1r : (raceExec false freq hat st).1 =
        (dispatchWriteStep hat st).1 ++
          (syncWriteStep freq (dispatchWriteStep hat st).2).1 := rfl
    have h2r : (raceExec false freq hat st).2 =
        (syncWriteStep freq (dispatchWriteStep hat st).2).2 := rfl
    rw [h1r] at h
    rw [h2r]
    rcases dispatchWriteStep_spec hat st with hd | ⟨w, hw, _⟩
    · rcases syncWriteStep_spec freq (dispatchWriteStep hat st).2 with
        hs | ⟨hs, _⟩
      · rw [hd, hs] at h
        simp at h
      · rw [hd, hs] at h
        simp at h
    · rcases syncWriteStep_spec freq (dispatchWriteStep hat st).2 with
        hs | ⟨hs, hlast⟩
      · rw [hw, hs] at h
        simp at h
      · rw [hw, hs] at h
        simp only [List.cons_append, List.nil_append, List.cons.injEq,
          and_true] at h
        right
        rw [hlast, h.2]

/-- C9 witness: with last_frequency 5, a sync read of 7 followed by a right
    dispatch with step 1000 writes 7 then 1007; the final value is one of
    them. -/
theorem race_one_of_two_writes_witness :
    (raceExec true 7 (1, 0) (⟨some 5, 0⟩ : ServerState)).2.last_frequency =
      some 7 ∨
    (raceExec true 7 (1, 0) (⟨some 5, 0⟩ : ServerState)).2.last_frequency =
      some 1007 :=
  race_one_of_two_writes true 7 (1, 0) ⟨some 5, 0⟩ 7 1007 (by decide)

end Rigpad
